import Mathlib

/-!
Verification development for the Acorn Slack bot's streaming/AI-service core.

The definitions below are shallow embeddings of the JavaScript/TypeScript
source: JS strings become `String`, possibly-absent values become `Option`,
JS truthiness of strings is modelled explicitly (`""` and `undefined` are
falsy), async generators and `for await` loops become recursive functions
over lists, and wall-clock time is an explicit `Nat` parameter per loop
iteration.
-/

namespace Acorn

/-- JS truthiness of a possibly-undefined string value: `undefined` and the
empty string are falsy, every other string is truthy. -/
def isTruthyStr : Option String → Bool
  | some s => !s.isEmpty
  | none => false

/-- JS `a || b` on possibly-undefined string values. -/
def jsOr (a b : Option String) : Option String :=
  if isTruthyStr a then a else b

/-- JS `a || b` where both sides are (defined) strings. -/
def jsOrStr (a b : String) : String :=
  if a.isEmpty then b else a

/-- A `location` record of a retrieved reference.  Each variant field models
`s3Location` / `webLocation` / ... : the outer `Option` is presence of the
location object, the inner `Option` is presence of its `uri`/`url` field. -/
structure RefLocation where
  s3Location : Option (Option String) := none
  webLocation : Option (Option String) := none
  confluenceLocation : Option (Option String) := none
  salesforceLocation : Option (Option String) := none
  sharePointLocation : Option (Option String) := none
  kendraDocumentLocation : Option (Option String) := none
  deriving Repr, DecidableEq

/-- One entry of `citation.retrievedReferences`: the `location`,
`metadata.title` and `content.text` fields, each possibly absent. -/
structure RetrievedRef where
  location : Option RefLocation := none
  metadataTitle : Option String := none
  contentText : Option String := none
  deriving Repr, DecidableEq

/-- The JS value of `ref.location?.X?.uri` for a location variant `f`. -/
def locField (l : Option RefLocation) (f : RefLocation → Option (Option String)) :
    Option String :=
  match l with
  | none => none
  | some loc =>
    match f loc with
    | none => none
    | some u => u

/-- URI resolution, mirroring the `||` chain over the six location variants
in `_queryAgent` / `_streamAgent`. -/
def refUri (r : RetrievedRef) : Option String :=
  jsOr (locField r.location (·.s3Location))
    (jsOr (locField r.location (·.webLocation))
      (jsOr (locField r.location (·.confluenceLocation))
        (jsOr (locField r.location (·.salesforceLocation))
          (jsOr (locField r.location (·.sharePointLocation))
            (locField r.location (·.kendraDocumentLocation))))))

/-- The JS value of `ref.content?.text?.substring(0, 50) + "..."`.  When the
content text is absent the left operand is `undefined`, and JS string
concatenation coerces it to the string `"undefined"`. -/
def contentTitlePart (contentText : Option String) : String :=
  match contentText with
  | some t => t.take 50 ++ "..."
  | none => "undefined" ++ "..."

/-- Title fallback chain
`ref.metadata?.title || ref.content?.text?.substring(0, 50) + "..." || "Source document"`
(the `+` binds tighter than `||`). -/
def citationTitle (metadataTitle contentText : Option String) : String :=
  let afterMeta :=
    match metadataTitle with
    | some t => if t.isEmpty then contentTitlePart contentText else t
    | none => contentTitlePart contentText
  jsOrStr afterMeta "Source document"

/-- Source-type classification from which location variant is present, as in
the nested conditional `ref.location?.s3Location ? "s3" : ...`. -/
def refType (l : Option RefLocation) : String :=
  match l with
  | none => "unknown"
  | some loc =>
    if loc.s3Location.isSome then "s3"
    else if loc.webLocation.isSome then "web"
    else if loc.confluenceLocation.isSome then "confluence"
    else if loc.salesforceLocation.isSome then "salesforce"
    else if loc.sharePointLocation.isSome then "sharepoint"
    else if loc.kendraDocumentLocation.isSome then "kendra"
    else "unknown"

/-- A normalized citation as pushed onto the running `citations` array. -/
structure Citation where
  uri : String
  title : String
  type : String
  generatedResponsePart : Option String := none
  deriving Repr, DecidableEq

/-- Dedup-checked insertion: skip the push when an existing entry has an
equal `uri` or an equal `title` (`citations.find((c) => c.uri === uri || c.title === title)`). -/
def insertCitation (cs : List Citation) (c : Citation) : List Citation :=
  if cs.any (fun e => e.uri == c.uri || e.title == c.title) then cs
  else cs ++ [c]

/-- Process one retrieved reference against the running citation list:
drop it silently when the resolved URI is not truthy, otherwise build the
citation and insert it with dedup. -/
def processRef (grp : Option String) (cs : List Citation) (r : RetrievedRef) :
    List Citation :=
  if isTruthyStr (refUri r) then
    insertCitation cs
      { uri := (refUri r).getD ""
        title := citationTitle r.metadataTitle r.contentText
        type := refType r.location
        generatedResponsePart := grp }
  else cs

/-- One entry of `chunk.chunk.attribution.citations`. -/
structure AttrCitation where
  retrievedReferences : Option (List RetrievedRef) := none
  generatedResponsePart : Option String := none
  deriving Repr, DecidableEq

/-- Process one attribution citation: fold its retrieved references (an
absent `retrievedReferences` array is skipped, like the `if` guard). -/
def processAttrCitation (cs : List Citation) (ac : AttrCitation) : List Citation :=
  (ac.retrievedReferences.getD []).foldl (processRef ac.generatedResponsePart) cs

/-- One raw chunk from the agent's `response.completion` sequence: decoded
`chunk.chunk.bytes` text and the `chunk.chunk.attribution.citations` array,
each possibly absent. -/
structure AgentChunk where
  bytes : Option String := none
  attributionCitations : Option (List AttrCitation) := none
  deriving Repr, DecidableEq

/-- Citation extraction for one agent chunk (the `chunk.chunk?.attribution?.citations`
branch of the loop body). -/
def processChunkCitations (cs : List Citation) (ch : AgentChunk) : List Citation :=
  (ch.attributionCitations.getD []).foldl processAttrCitation cs

/-- All citations extracted from a full agent chunk sequence. -/
def citationsOf (chunks : List AgentChunk) : List Citation :=
  chunks.foldl processChunkCitations []

/-- An event yielded by the agent stream generator (`{type, content}` tagged
records). -/
inductive StreamEvent where
  | text (content : String)
  | citations (content : List Citation)
  | complete (content : String)
  deriving Repr, DecidableEq

/-- The agent stream generator of `_streamAgent`: for each chunk, yield a
`text` event for its decoded bytes (appending to `fullResponse`) and fold
its attribution citations into the accumulator; after the loop, yield a
`citations` event when any citation was collected and a final `complete`
event carrying the whole accumulated text. -/
def streamGenerator (fullResponse : String) (cits : List Citation) :
    List AgentChunk → List StreamEvent
  | [] =>
    (if cits.length > 0 then [StreamEvent.citations cits] else [])
      ++ [StreamEvent.complete fullResponse]
  | ch :: rest =>
    match ch.bytes with
    | some t =>
      StreamEvent.text t :: streamGenerator (fullResponse ++ t)
        (processChunkCitations cits ch) rest
    | none =>
      streamGenerator fullResponse (processChunkCitations cits ch) rest

/-- Right-fold concatenation of a list of text deltas (specification-side
helper used to state theorems about accumulated text). -/
def concatTexts : List String → String
  | [] => ""
  | s :: rest => s ++ concatTexts rest

/-- The glyph for a citation type, as in the chained conditional of
`_queryAgent`. -/
def typeEmoji (t : String) : String :=
  if t == "s3" then "📄"
  else if t == "web" then "🌐"
  else if t == "confluence" then "📝"
  else if t == "salesforce" then "⚡"
  else if t == "sharepoint" then "📊"
  else if t == "kendra" then "🔍"
  else "📋"

/-- The numbered "Sources" section appended by `_queryAgent` when citations
are present. -/
def sourcesSection (cits : List Citation) : String :=
  "\n\n📚 *Sources:*\n"
    ++ concatTexts (cits.enum.map fun p =>
        toString (p.1 + 1) ++ ". " ++ typeEmoji p.2.type ++ " " ++ p.2.title
          ++ "\n   " ++ p.2.uri ++ "\n")

/-- The result record returned by the query path (`AIResponse` shape). -/
structure AIResponse where
  success : Bool
  response : Option String := none
  source : Option String := none
  citations : List Citation := []
  error : Option String := none
  deriving Repr, DecidableEq

/-- The synchronous chunk-draining loop of `_queryAgent`: accumulate decoded
bytes into `finalResponse` and fold attribution citations. -/
def runAgentChunks (chunks : List AgentChunk) : String × List Citation :=
  chunks.foldl
    (fun acc ch => (acc.1 ++ ch.bytes.getD "", processChunkCitations acc.2 ch))
    ("", [])

/-- The success path of `_queryAgent` over a received chunk sequence:
`finalResponse.trim() || "I received your question but couldn't generate a response."`,
then the Sources section when citations exist. -/
def queryAgentSuccess (chunks : List AgentChunk) : AIResponse :=
  let fc := runAgentChunks chunks
  let base := jsOrStr fc.1.trim
    "I received your question but couldn't generate a response."
  let responseWithCitations :=
    if fc.2.length > 0 then base ++ sourcesSection fc.2 else base
  { success := true
    response := some responseWithCitations
    source := some "agent"
    citations := fc.2 }

/-- `_queryModel`: the direct-model transport outcome mapped to an
`AIResponse`; a thrown error becomes a structured failure with the canned
user-facing message. -/
def queryModelRun (modelResult : Except String String) : AIResponse :=
  match modelResult with
  | .ok text => { success := true, response := some text, source := some "model" }
  | .error e =>
    { success := false
      error := some e
      response := some
        "Sorry, I encountered an error while processing your question. Please try again later." }

/-- `_queryAgent` with its catch-all: an agent transport error falls back to
`_queryModel` on the same question. -/
def queryAgentRun (agentResult : Except String (List AgentChunk))
    (modelResult : Except String String) : AIResponse :=
  match agentResult with
  | .ok chunks => queryAgentSuccess chunks
  | .error _ => queryModelRun modelResult

/-- The dispatch of `query(...)`: use the agent when an agent client is
configured and streaming was not requested, otherwise the direct model. -/
def queryRun (agentConfigured streamRequested : Bool)
    (agentResult : Except String (List AgentChunk))
    (modelResult : Except String String) : AIResponse :=
  if agentConfigured && !streamRequested then queryAgentRun agentResult modelResult
  else queryModelRun modelResult

/-- JS `s.substring(0, n)` (characters as the unit of truncation). -/
def jsSubstringTo (s : String) (n : Nat) : String :=
  String.mk (s.data.take n)

/-- The session-id template `` `slack-${userId}-${channelId}-${Date.now()}` ``. -/
def sessionTemplate (userId channelId : String) (nowMs : Nat) : String :=
  "slack-" ++ userId ++ "-" ++ channelId ++ "-" ++ toString nowMs

/-- The derived session id: the template truncated via `.substring(0, 100)`. -/
def sessionId (userId channelId : String) (nowMs : Nat) : String :=
  jsSubstringTo (sessionTemplate userId channelId nowMs) 100

/-- A raw chunk as seen by the stream consumers: a bare string from the
direct-model stream, a tagged record from the agent stream, or an object of
an unrecognized tagged type. -/
inductive RawChunk where
  | str (s : String)
  | text (content : String)
  | citations (content : List Citation)
  | complete (content : String)
  | other
  deriving Repr, DecidableEq

/-- `processStreamChunk` of `streamingHelper.ts`: classify one chunk into a
text delta and an optional citation batch. -/
def processStreamChunk : RawChunk → String × Option (List Citation)
  | .str s => (s, none)
  | .text content => (content, none)
  | .citations content => ("", some content)
  | .complete _ => ("", none)
  | .other => ("", none)

/-- Whether `chunk?.type === "complete"` holds for a chunk. -/
def isCompleteChunk : RawChunk → Bool
  | .complete _ => true
  | _ => false

/-- The consumer loop state: accumulated text, current citation list, the
`lastUpdate` timestamp, and the list of progress texts actually delivered to
the messaging surface. -/
structure StreamAcc where
  fullResponse : String := ""
  citations : List Citation := []
  lastUpdate : Nat := 0
  updates : List String := []
  deriving Repr, DecidableEq

/-- Initial consumer state with `lastUpdate = Date.now()` at loop start. -/
def initAcc (t0 : Nat) : StreamAcc :=
  { lastUpdate := t0 }

/-- One loop iteration's inputs: the wall-clock reading for this iteration,
whether a messaging-surface call issued in this iteration would succeed, and
the chunk itself. -/
structure TimedChunk where
  now : Nat
  updateOk : Bool
  chunk : RawChunk
  deriving Repr, DecidableEq

/-- The text/citation mutation of one interactive-loop iteration
(`streamingHelper.ts`): `if (text) fullResponse += text;` then
`if (newCitations) citations = newCitations;` — assignment, not a merge. -/
def applyChunkI (acc : StreamAcc) (c : RawChunk) : StreamAcc :=
  let pc := processStreamChunk c
  let acc1 :=
    if !pc.1.isEmpty then { acc with fullResponse := acc.fullResponse ++ pc.1 }
    else acc
  match pc.2 with
  | some l => { acc1 with citations := l }
  | none => acc1

/-- The text/citation mutation of one background-loop iteration
(`responses.js`): `fullResponse += chunk` / `fullResponse += chunk.content`
with no emptiness guard, then the same citation assignment. -/
def applyChunkB (acc : StreamAcc) (c : RawChunk) : StreamAcc :=
  let pc := processStreamChunk c
  let acc1 := { acc with fullResponse := acc.fullResponse ++ pc.1 }
  match pc.2 with
  | some l => { acc1 with citations := l }
  | none => acc1

/-- The interactive consumer loop of `processStreamingResponse`
(`streamingHelper.ts`, threshold 2000 ms).  A progress update is issued via
`app.client.chat.update`, which throws on failure; the loop body does not
catch, so a failed update aborts consumption (`.error` carries the state at
the abort).  On success the result pairs the final state with the chunks
left unconsumed after a `complete` chunk. -/
def runInteractive (pre : String) (acc : StreamAcc) :
    List TimedChunk → Except StreamAcc (StreamAcc × List TimedChunk)
  | [] => .ok (acc, [])
  | tc :: rest =>
    let acc1 := applyChunkI acc tc.chunk
    if isCompleteChunk tc.chunk then .ok (acc1, rest)
    else if tc.now - acc1.lastUpdate > 2000 then
      if tc.updateOk then
        runInteractive pre
          { acc1 with
            updates := acc1.updates ++ [pre ++ acc1.fullResponse ++ "..."]
            lastUpdate := tc.now } rest
      else .error acc1
    else runInteractive pre acc1 rest

/-- The background consumer loop of `processStreamInBackground`
(`responses.js`, threshold 3000 ms, plus the `fullResponse.length > 50`
guard).  Its messaging-surface helper `updateMessage` catches failures
internally and returns `null`, so the loop is total: a failed update is
merely not delivered, while `lastUpdate` is still reset. -/
def runBackground (pre : String) (acc : StreamAcc) :
    List TimedChunk → StreamAcc × List TimedChunk
  | [] => (acc, [])
  | tc :: rest =>
    let acc1 := applyChunkB acc tc.chunk
    if isCompleteChunk tc.chunk then (acc1, rest)
    else if tc.now - acc1.lastUpdate > 3000 && acc1.fullResponse.length > 50 then
      let delivered :=
        if tc.updateOk then acc1.updates ++ [pre ++ acc1.fullResponse ++ "..."]
        else acc1.updates
      runBackground pre { acc1 with updates := delivered, lastUpdate := tc.now } rest
    else runBackground pre acc1 rest

/-- The chunks strictly before the first `complete` chunk. -/
def beforeComplete (tcs : List TimedChunk) : List TimedChunk :=
  tcs.takeWhile (fun tc => !isCompleteChunk tc.chunk)

/-- The chunks strictly after the first `complete` chunk (empty when there
is none). -/
def afterComplete (tcs : List TimedChunk) : List TimedChunk :=
  (tcs.dropWhile (fun tc => !isCompleteChunk tc.chunk)).drop 1

/-- The text delta contributed by one chunk. -/
def chunkDelta (c : RawChunk) : String :=
  (processStreamChunk c).1

/-- The result record of `queryWithKnowledgeBasePriority` (the fields the
handler reads: `success`, `response`, `error`, `citations`, plus the `source`
and `knowledgeBaseUsed` annotations it adds). -/
structure KBResult where
  success : Bool
  response : Option String := none
  error : Option String := none
  citations : List Citation := []
  source : Option String := none
  knowledgeBaseUsed : Option String := none
  deriving Repr, DecidableEq

/-- The `for` loop of `queryWithKnowledgeBasePriority`: try each knowledge
base in order (0-based index `i`, displayed as `i + 1`), returning the first
successful result and the trace of invocations made. -/
def tryKnowledgeBases (q : Option String → KBResult) (i : Nat) :
    List String → Option KBResult × List (Option String)
  | [] => (none, [])
  | kbId :: rest =>
    let result := q (some kbId)
    if result.success then
      (some { result with
          source := some ("knowledge base " ++ toString (i + 1))
          knowledgeBaseUsed := some kbId },
        [some kbId])
    else
      let t := tryKnowledgeBases q (i + 1) rest
      (t.1, some kbId :: t.2)

/-- `queryWithKnowledgeBasePriority`: try each configured knowledge base in
order; only when none succeeds (or none is configured) fall back to one
unscoped `aiService.query` call (traced as `none`). -/
def queryWithKnowledgeBasePriority (q : Option String → KBResult)
    (kbIds : List String) : KBResult × List (Option String) :=
  let t := tryKnowledgeBases q 0 kbIds
  match t.1 with
  | some result => (result, t.2)
  | none =>
    let result := q none
    ({ result with source := some "general AI", knowledgeBaseUsed := none },
      t.2 ++ [none])

/-- Whether a generated stream event is a `citations` event. -/
def isCitationsEvent : StreamEvent → Bool
  | .citations _ => true
  | _ => false

/-- A concrete query oracle used to instantiate the multi-knowledge-base
scenario: only knowledge base "kb2" answers successfully. -/
def kbOracle : Option String → KBResult
  | some kbId => if kbId == "kb2" then { success := true, response := some "hit" }
    else { success := false, error := some "miss" }
  | none => { success := false, error := some "general miss" }

section Theorems

set_option maxRecDepth 8000

/-- Membership reading of the dedup guard of `insertCitation`. -/
theorem insertCitation_guard_iff (cs : List Citation) (c : Citation) :
    (cs.any fun e => e.uri == c.uri || e.title == c.title) = true
      ↔ ∃ e ∈ cs, e.uri = c.uri ∨ e.title = c.title := by
  simp [List.any_eq_true]

/-- Claim C1: the spec says the citation title falls back to the literal
"Source document" when both the metadata title and the content text are
absent; the code instead produces `"undefined..."` because
`ref.content?.text?.substring(0, 50) + "..."` evaluates to the truthy string
`"undefined..."` when the content text is `undefined` (the `+` binds tighter
than `||`), making the `|| "Source document"` branch unreachable.  The first
two fallback steps behave as specified. -/
theorem claim_C1_title_fallback :
    citationTitle none none = "undefined..."
      ∧ citationTitle none none ≠ "Source document"
      ∧ processRef none []
          { location := some { s3Location := some (some "s3://bucket/doc") }
            metadataTitle := none
            contentText := none }
          = [{ uri := "s3://bucket/doc", title := "undefined...", type := "s3" }]
      ∧ citationTitle (some "Doc Title") (some "ignored content") = "Doc Title"
      ∧ citationTitle none
          (some "0123456789012345678901234567890123456789012345678901234")
          = "01234567890123456789012345678901234567890123456789..."
      ∧ citationTitle none (some "short text") = "short text..." := by
  refine ⟨rfl, ?_, rfl, rfl, rfl, rfl⟩
  decide

/-- Claim C2: insertion into the running citation list is skipped exactly
when some existing entry has an equal `uri` or an equal `title`, and
inserting the same citation twice equals inserting it once, so the resulting
list is no longer. -/
theorem claim_C2_dedup_idempotent (cs : List Citation) (c : Citation) :
    (insertCitation cs c = cs ↔ ∃ e ∈ cs, e.uri = c.uri ∨ e.title = c.title)
      ∧ insertCitation (insertCitation cs c) c = insertCitation cs c
      ∧ (insertCitation (insertCitation cs c) c).length
          ≤ (insertCitation cs c).length := by
  by_cases h : (cs.any fun e => e.uri == c.uri || e.title == c.title) = true
  · have heq : insertCitation cs c = cs := by simp [insertCitation, h]
    refine ⟨⟨fun _ => (insertCitation_guard_iff cs c).mp h,
      fun _ => heq⟩, ?_, ?_⟩
    · rw [heq, heq]
    · rw [heq, heq]
  · have heq : insertCitation cs c = cs ++ [c] := by simp [insertCitation, h]
    have hgrow : cs ++ [c] ≠ cs := by
      intro habs
      have := congrArg List.length habs
      simp at this
    have hsecond : insertCitation (cs ++ [c]) c = cs ++ [c] := by
      have : ((cs ++ [c]).any fun e => e.uri == c.uri || e.title == c.title)
          = true := by
        simp [List.any_append]
      simp [insertCitation, this]
    refine ⟨⟨fun habs => absurd (heq ▸ habs) hgrow,
      fun hex => absurd ((insertCitation_guard_iff cs c).mpr hex) h⟩, ?_, ?_⟩
    · rw [heq, hsecond]
    · rw [heq, hsecond]

/-- Claim C2 witness at a concrete list and citation. -/
theorem claim_C2_dedup_idempotent_witness :
    (insertCitation [{ uri := "u1", title := "t1", type := "web" }]
        { uri := "u1", title := "other", type := "s3" }
        = [{ uri := "u1", title := "t1", type := "web" }]
      ↔ ∃ e ∈ [({ uri := "u1", title := "t1", type := "web" } : Citation)],
          e.uri = "u1" ∨ e.title = "other")
      ∧ insertCitation
          (insertCitation [{ uri := "u1", title := "t1", type := "web" }]
            { uri := "u1", title := "other", type := "s3" })
          { uri := "u1", title := "other", type := "s3" }
          = insertCitation [{ uri := "u1", title := "t1", type := "web" }]
              { uri := "u1", title := "other", type := "s3" }
      ∧ (insertCitation
          (insertCitation [{ uri := "u1", title := "t1", type := "web" }]
            { uri := "u1", title := "other", type := "s3" })
          { uri := "u1", title := "other", type := "s3" }).length
          ≤ (insertCitation [{ uri := "u1", title := "t1", type := "web" }]
              { uri := "u1", title := "other", type := "s3" }).length :=
  claim_C2_dedup_idempotent
    [{ uri := "u1", title := "t1", type := "web" }]
    { uri := "u1", title := "other", type := "s3" }

/-- Claim C3: when the agent backend is configured (and streaming is not
requested) and the agent transport throws, `query` falls back exactly once
to the direct-model path on the same question; with a model transport that
returns "ok" the result is a success with response "ok" and source "model";
and when the model transport also throws, the result is a structured failure
(`success = false` with the canned user-facing message) — no exception
propagates, every outcome is a plain `AIResponse` value. -/
theorem claim_C3_agent_fallback (e : String) (m : Except String String) :
    queryRun true false (.error e) m = queryModelRun m
      ∧ queryRun true false (.error e) (.ok "ok")
          = { success := true, response := some "ok", source := some "model" }
      ∧ ∀ e2 : String,
          (queryRun true false (.error e) (.error e2)).success = false
            ∧ (queryRun true false (.error e) (.error e2)).response
                = some "Sorry, I encountered an error while processing your question. Please try again later."
            ∧ (queryRun true false (.error e) (.error e2)).error = some e2 := by
  refine ⟨rfl, rfl, fun e2 => ⟨rfl, rfl, rfl⟩⟩

/-- Claim C8: the derived session id is the composite
`slack-${userId}-${channelId}-${Date.now()}` truncated to at most 100
characters, so its length never exceeds 100; in particular for
`userId = "U" + "x".repeat(200)`, `channelId = "C1"`. -/
theorem claim_C8_session_id_bound :
    (∀ (userId channelId : String) (nowMs : Nat),
        (sessionId userId channelId nowMs).length ≤ 100
          ∧ sessionId userId channelId nowMs
              = jsSubstringTo (sessionTemplate userId channelId nowMs) 100)
      ∧ (sessionId ("U" ++ String.mk (List.replicate 200 'x')) "C1"
          1700000000000).length ≤ 100 := by
  constructor
  · intro userId channelId nowMs
    refine ⟨?_, rfl⟩
    show ((sessionTemplate userId channelId nowMs).data.take 100).length ≤ 100
    exact List.length_take_le 100 _
  · show ((sessionTemplate _ _ _).data.take 100).length ≤ 100
    exact List.length_take_le 100 _

/-- Structural form of the agent stream generator: all text events first (in
chunk order), then the citation batch (when non-empty), then the final
completion event carrying the accumulated text. -/
theorem streamGenerator_eq (chunks : List AgentChunk) (full : String)
    (cits : List Citation) :
    streamGenerator full cits chunks
      = (chunks.filterMap (·.bytes)).map StreamEvent.text
        ++ (if (chunks.foldl processChunkCitations cits).length > 0
            then [StreamEvent.citations (chunks.foldl processChunkCitations cits)]
            else [])
        ++ [StreamEvent.complete
            (full ++ concatTexts (chunks.filterMap (·.bytes)))] := by
  induction chunks generalizing full cits with
  | nil => simp [streamGenerator, concatTexts, String.append_empty]
  | cons ch rest ih =>
    cases hb : ch.bytes with
    | some t =>
      simp [streamGenerator, hb, ih, concatTexts, String.append_assoc]
    | none =>
      simp [streamGenerator, hb, ih, concatTexts]

/-- Claim C10: the event sequence produced by the agent stream generator is
zero or more `text` events (one per chunk with decoded bytes, in order),
then at most one `citations` event — present exactly when the extracted
citation list is non-empty — then exactly one `complete` event whose content
is the concatenation of all preceding text deltas. -/
theorem claim_C10_stream_shape (chunks : List AgentChunk) :
    streamGenerator "" [] chunks
      = (chunks.filterMap (·.bytes)).map StreamEvent.text
        ++ (if (citationsOf chunks).length > 0
            then [StreamEvent.citations (citationsOf chunks)]
            else [])
        ++ [StreamEvent.complete (concatTexts (chunks.filterMap (·.bytes)))] := by
  have h := streamGenerator_eq chunks "" []
  rw [String.empty_append] at h
  exact h

/-- A `complete` chunk contributes no text delta. -/
theorem chunkDelta_of_complete {c : RawChunk} (h : isCompleteChunk c = true) :
    chunkDelta c = "" := by
  cases c <;> simp_all [isCompleteChunk, chunkDelta, processStreamChunk]

/-- Canonical form of the interactive per-chunk mutation: the guard
`if (text)` is equivalent to an unconditional append, and a citation batch
is assigned over the previous list. -/
theorem applyChunkI_eq (acc : StreamAcc) (c : RawChunk) :
    applyChunkI acc c
      = { acc with
          fullResponse := acc.fullResponse ++ chunkDelta c
          citations := (processStreamChunk c).2.getD acc.citations } := by
  cases c with
  | str s =>
    by_cases h : s.isEmpty
    · have hs : s = "" := (String.isEmpty_iff s).mp h
      subst hs
      simp [applyChunkI, processStreamChunk, chunkDelta, String.append_empty]
    · simp [applyChunkI, processStreamChunk, chunkDelta, h]
  | text s =>
    by_cases h : s.isEmpty
    · have hs : s = "" := (String.isEmpty_iff s).mp h
      subst hs
      simp [applyChunkI, processStreamChunk, chunkDelta, String.append_empty]
    · simp [applyChunkI, processStreamChunk, chunkDelta, h]
  | citations l =>
    simp [applyChunkI, processStreamChunk, chunkDelta, String.append_empty]
  | complete s =>
    simp [applyChunkI, processStreamChunk, chunkDelta, String.append_empty]
  | other =>
    simp [applyChunkI, processStreamChunk, chunkDelta, String.append_empty]

/-- Canonical form of the background per-chunk mutation. -/
theorem applyChunkB_eq (acc : StreamAcc) (c : RawChunk) :
    applyChunkB acc c
      = { acc with
          fullResponse := acc.fullResponse ++ chunkDelta c
          citations := (processStreamChunk c).2.getD acc.citations } := by
  cases c <;> simp [applyChunkB, processStreamChunk, chunkDelta]

/-- When every messaging-surface call succeeds, the interactive loop runs to
completion: it stops exactly at the first `complete` chunk, leaves the
suffix unconsumed, and accumulates precisely the text deltas of the chunks
before the `complete` chunk. -/
theorem runInteractive_ok (pre : String) (tcs : List TimedChunk) :
    ∀ acc : StreamAcc, (∀ tc ∈ tcs, tc.updateOk = true) →
      ∃ st, runInteractive pre acc tcs = .ok (st, afterComplete tcs)
        ∧ st.fullResponse = acc.fullResponse
            ++ concatTexts ((beforeComplete tcs).map fun tc => chunkDelta tc.chunk) := by
  induction tcs with
  | nil =>
    intro acc _
    refine ⟨acc, by simp [runInteractive, afterComplete], ?_⟩
    simp [beforeComplete, concatTexts, String.append_empty]
  | cons tc rest ih =>
    intro acc hok
    have h2 : ∀ x ∈ rest, x.updateOk = true :=
      fun x hx => hok x (List.mem_cons_of_mem _ hx)
    by_cases hc : isCompleteChunk tc.chunk
    · refine ⟨applyChunkI acc tc.chunk, ?_, ?_⟩
      · simp [runInteractive, hc, afterComplete, List.dropWhile_cons]
      · rw [applyChunkI_eq]
        simp [beforeComplete, List.takeWhile_cons, hc, concatTexts,
          chunkDelta_of_complete hc, String.append_empty]
    · have h1 : tc.updateOk = true := hok tc (List.mem_cons_self _ _)
      have hbefore : beforeComplete (tc :: rest) = tc :: beforeComplete rest := by
        simp [beforeComplete, List.takeWhile_cons, hc]
      have hafter : afterComplete (tc :: rest) = afterComplete rest := by
        simp [afterComplete, List.dropWhile_cons, hc]
      by_cases hu : tc.now - (applyChunkI acc tc.chunk).lastUpdate > 2000
      · have hstep : runInteractive pre acc (tc :: rest)
            = runInteractive pre
                { applyChunkI acc tc.chunk with
                  updates := (applyChunkI acc tc.chunk).updates
                    ++ [pre ++ (applyChunkI acc tc.chunk).fullResponse ++ "..."]
                  lastUpdate := tc.now } rest := by
          simp [runInteractive, hc, hu, h1]
        obtain ⟨st, hrun, hfull⟩ := ih _ h2
        refine ⟨st, ?_, ?_⟩
        · rw [hstep, hrun, hafter]
        · rw [hfull, hbefore]
          simp [applyChunkI_eq, concatTexts, String.append_assoc]
      · have hstep : runInteractive pre acc (tc :: rest)
            = runInteractive pre (applyChunkI acc tc.chunk) rest := by
          simp [runInteractive, hc, hu]
        obtain ⟨st, hrun, hfull⟩ := ih _ h2
        refine ⟨st, ?_, ?_⟩
        · rw [hstep, hrun, hafter]
        · rw [hfull, hbefore]
          simp [applyChunkI_eq, concatTexts, String.append_assoc]

/-- The background loop is total and never aborts, whatever the outcomes of
the messaging-surface calls: it stops exactly at the first `complete` chunk,
leaves the suffix unconsumed, and accumulates precisely the text deltas of
the chunks before the `complete` chunk. -/
theorem runBackground_spec (pre : String) (tcs : List TimedChunk) :
    ∀ acc : StreamAcc,
      (runBackground pre acc tcs).2 = afterComplete tcs
        ∧ (runBackground pre acc tcs).1.fullResponse
            = acc.fullResponse
              ++ concatTexts ((beforeComplete tcs).map fun tc => chunkDelta tc.chunk) := by
  induction tcs with
  | nil =>
    intro acc
    refine ⟨by simp [runBackground, afterComplete], ?_⟩
    simp [runBackground, beforeComplete, concatTexts, String.append_empty]
  | cons tc rest ih =>
    intro acc
    by_cases hc : isCompleteChunk tc.chunk
    · refine ⟨?_, ?_⟩
      · simp [runBackground, hc, afterComplete, List.dropWhile_cons]
      · simp [runBackground, hc, applyChunkB_eq, beforeComplete,
          List.takeWhile_cons, concatTexts, chunkDelta_of_complete hc,
          String.append_empty]
    · have hbefore : beforeComplete (tc :: rest) = tc :: beforeComplete rest := by
        simp [beforeComplete, List.takeWhile_cons, hc]
      have hafter : afterComplete (tc :: rest) = afterComplete rest := by
        simp [afterComplete, List.dropWhile_cons, hc]
      by_cases hu : (tc.now - (applyChunkB acc tc.chunk).lastUpdate > 3000
          && (applyChunkB acc tc.chunk).fullResponse.length > 50) = true
      · have hstep : runBackground pre acc (tc :: rest)
            = runBackground pre
                { applyChunkB acc tc.chunk with
                  updates :=
                    if tc.updateOk then
                      (applyChunkB acc tc.chunk).updates
                        ++ [pre ++ (applyChunkB acc tc.chunk).fullResponse ++ "..."]
                    else (applyChunkB acc tc.chunk).updates
                  lastUpdate := tc.now } rest := by
          simp [runBackground, hc, hu]
        obtain ⟨hrest, hfull⟩ := ih ({ applyChunkB acc tc.chunk with
          updates :=
            if tc.updateOk then
              (applyChunkB acc tc.chunk).updates
                ++ [pre ++ (applyChunkB acc tc.chunk).fullResponse ++ "..."]
            else (applyChunkB acc tc.chunk).updates
          lastUpdate := tc.now })
        refine ⟨?_, ?_⟩
        · rw [hstep, hrest, hafter]
        · rw [hstep, hfull, hbefore]
          simp [applyChunkB_eq, concatTexts, String.append_assoc]
      · have hstep : runBackground pre acc (tc :: rest)
            = runBackground pre (applyChunkB acc tc.chunk) rest := by
          simp [runBackground, hc, hu]
        obtain ⟨hrest, hfull⟩ := ih (applyChunkB acc tc.chunk)
        refine ⟨?_, ?_⟩
        · rw [hstep, hrest, hafter]
        · rw [hstep, hfull, hbefore]
          simp [applyChunkB_eq, concatTexts, String.append_assoc]

/-- Claim C4: for every streamed chunk sequence (with all progress updates
succeeding), the final accumulated text is the concatenation of the text
deltas of the chunks preceding the first `complete` chunk, and consumption
stops at the `complete` chunk, leaving the remaining chunks unread; in
particular for `[text "a", text "b", complete, text "c"]` the final text is
`"ab"` and `text "c"` is never consumed. -/
theorem claim_C4_early_stop :
    (∀ (pre : String) (t0 : Nat) (tcs : List (Nat × RawChunk)),
        ∃ st,
          runInteractive pre (initAcc t0) (tcs.map fun p => ⟨p.1, true, p.2⟩)
              = .ok (st, afterComplete (tcs.map fun p => ⟨p.1, true, p.2⟩))
            ∧ st.fullResponse
                = concatTexts
                    ((beforeComplete (tcs.map fun p => ⟨p.1, true, p.2⟩)).map
                      fun tc => chunkDelta tc.chunk))
      ∧ runInteractive "" (initAcc 0)
          [⟨0, true, .text "a"⟩, ⟨0, true, .text "b"⟩, ⟨0, true, .complete "ab"⟩,
            ⟨0, true, .text "c"⟩]
          = .ok ({ fullResponse := "ab", citations := [], lastUpdate := 0,
                    updates := [] }, [⟨0, true, .text "c"⟩]) := by
  constructor
  · intro pre t0 tcs
    have hok : ∀ tc ∈ tcs.map (fun p => (⟨p.1, true, p.2⟩ : TimedChunk)),
        tc.updateOk = true := by
      intro tc htc
      obtain ⟨p, -, rfl⟩ := List.mem_map.mp htc
      rfl
    obtain ⟨st, hrun, hfull⟩ := runInteractive_ok pre _ (initAcc t0) hok
    refine ⟨st, hrun, ?_⟩
    rw [hfull]
    simp [initAcc, String.empty_append]
  · rfl

/-- Claim C5 counterexample: a second `citations` event replaces the running
citation list rather than merging into it — after feeding a batch holding
`{uri := "u1", title := "t1"}` and then a batch holding
`{uri := "u2", title := "t2"}`, the first citation is gone from the final
list, although it had been added (the one-batch run ends with it). -/
theorem claim_C5_citations_replaced_counterexample :
    runInteractive "" (initAcc 0)
        [⟨0, true, .citations [{ uri := "u1", title := "t1", type := "web" }]⟩]
        = .ok ({ fullResponse := "",
                  citations := [{ uri := "u1", title := "t1", type := "web" }],
                  lastUpdate := 0, updates := [] }, [])
      ∧ runInteractive "" (initAcc 0)
          [⟨0, true, .citations [{ uri := "u1", title := "t1", type := "web" }]⟩,
            ⟨0, true, .citations [{ uri := "u2", title := "t2", type := "s3" }]⟩]
          = .ok ({ fullResponse := "",
                    citations := [{ uri := "u2", title := "t2", type := "s3" }],
                    lastUpdate := 0, updates := [] }, [])
      ∧ ({ uri := "u1", title := "t1", type := "web" } : Citation)
          ∉ [({ uri := "u2", title := "t2", type := "s3" } : Citation)] := by
  refine ⟨rfl, rfl, ?_⟩
  decide

/-- Claim C5 (amended): on a `citations` event the accumulator assigns the
incoming batch over the running citation list (replacement, not a
dedup-merge — the dedup-merge happens upstream, inside the agent stream
generator); the generator emits at most one `citations` event per response
lifecycle, so no earlier batch is lost when consuming a generator-produced
stream. -/
theorem claim_C5_citations_assignment (acc : StreamAcc) (l : List Citation) :
    ((applyChunkI acc (RawChunk.citations l)).citations = l
        ∧ (applyChunkB acc (RawChunk.citations l)).citations = l)
      ∧ ∀ chunks : List AgentChunk,
          (streamGenerator "" [] chunks).countP isCitationsEvent ≤ 1 := by
  refine ⟨⟨rfl, rfl⟩, ?_⟩
  intro chunks
  rw [streamGenerator_eq]
  have hz : List.countP (isCitationsEvent ∘ StreamEvent.text)
      (List.filterMap (fun x => x.bytes) chunks) = 0 :=
    List.countP_eq_zero.mpr (by intro a _; simp [Function.comp, isCitationsEvent])
  by_cases hcit : (chunks.foldl processChunkCitations []).length > 0 <;>
    simp [hcit, List.countP_append, List.countP_map, List.countP_cons,
      isCitationsEvent, hz]

/-- Claim C6 counterexample: on the background path the progress update is
additionally gated on `fullResponse.length > 50`; with accumulated text
`"hi"` and 4000 ms elapsed (threshold 3000 ms) no update is pushed, contrary
to the claim that elapsed time is the only precondition. -/
theorem claim_C6_length_gate_counterexample :
    (runBackground "" (initAcc 0) [⟨4000, true, RawChunk.str "hi"⟩]).1.updates = []
      ∧ (runBackground "" (initAcc 0)
          [⟨4000, true, RawChunk.str "hi"⟩]).1.fullResponse = "hi"
      ∧ 4000 - (initAcc 0).lastUpdate > 3000 := by
  refine ⟨rfl, rfl, ?_⟩
  decide

/-- Claim C6 (amended): after processing a (non-terminal) chunk, the
interactive path pushes the accumulated text with a trailing ellipsis and
resets the timer exactly when more than 2000 ms elapsed since the last
update, with no further precondition; the background path requires more than
3000 ms elapsed AND accumulated text longer than 50 characters. -/
theorem claim_C6_progress_thresholds (pre : String) (acc : StreamAcc)
    (now : Nat) (c : RawChunk) (h : isCompleteChunk c = false) :
    runInteractive pre acc [⟨now, true, c⟩]
        = .ok ((if now - acc.lastUpdate > 2000 then
            { applyChunkI acc c with
              updates := (applyChunkI acc c).updates
                ++ [pre ++ (applyChunkI acc c).fullResponse ++ "..."]
              lastUpdate := now }
          else applyChunkI acc c), [])
      ∧ runBackground pre acc [⟨now, true, c⟩]
          = ((if now - acc.lastUpdate > 3000
                && (applyChunkB acc c).fullResponse.length > 50 then
              { applyChunkB acc c with
                updates := (applyChunkB acc c).updates
                  ++ [pre ++ (applyChunkB acc c).fullResponse ++ "..."]
                lastUpdate := now }
            else applyChunkB acc c), []) := by
  have hluI : (applyChunkI acc c).lastUpdate = acc.lastUpdate := by
    rw [applyChunkI_eq]
  have hluB : (applyChunkB acc c).lastUpdate = acc.lastUpdate := by
    rw [applyChunkB_eq]
  constructor
  · by_cases hu : now - acc.lastUpdate > 2000 <;>
      simp [runInteractive, h, hluI, hu]
  · by_cases hu : 3000 < now - acc.lastUpdate
        ∧ 50 < (applyChunkB acc c).fullResponse.length
    · simp [runBackground, h, hluB, hu.1, hu.2]
    · rw [not_and_or] at hu
      rcases hu with hu | hu <;>
        simp [runBackground, h, hluB, hu]

/-- Claim C6 witness: the amended characterization instantiated at a
concrete non-terminal chunk. -/
theorem claim_C6_progress_thresholds_witness :
    isCompleteChunk (RawChunk.str "x") = false
      ∧ (runInteractive "" (initAcc 0) [⟨5000, true, RawChunk.str "x"⟩]
          = .ok ((if 5000 - (initAcc 0).lastUpdate > 2000 then
              { applyChunkI (initAcc 0) (RawChunk.str "x") with
                updates := (applyChunkI (initAcc 0) (RawChunk.str "x")).updates
                  ++ ["" ++ (applyChunkI (initAcc 0) (RawChunk.str "x")).fullResponse
                      ++ "..."]
                lastUpdate := 5000 }
            else applyChunkI (initAcc 0) (RawChunk.str "x")), [])
        ∧ runBackground "" (initAcc 0) [⟨5000, true, RawChunk.str "x"⟩]
            = ((if 5000 - (initAcc 0).lastUpdate > 3000
                  && (applyChunkB (initAcc 0) (RawChunk.str "x")).fullResponse.length
                      > 50 then
                { applyChunkB (initAcc 0) (RawChunk.str "x") with
                  updates := (applyChunkB (initAcc 0) (RawChunk.str "x")).updates
                    ++ ["" ++ (applyChunkB (initAcc 0)
                        (RawChunk.str "x")).fullResponse ++ "..."]
                  lastUpdate := 5000 }
              else applyChunkB (initAcc 0) (RawChunk.str "x")), [])) :=
  ⟨rfl, claim_C6_progress_thresholds "" (initAcc 0) 5000 (RawChunk.str "x") rfl⟩

/-- Claim C7 counterexample: on the interactive path a failing
messaging-surface update aborts stream consumption — with the update at the
first chunk failing, the run ends in the thrown-error branch holding only
`"alpha"`, and the subsequent `"beta"` chunk is never consumed. -/
theorem claim_C7_update_failure_aborts_counterexample :
    runInteractive "" (initAcc 0)
        [⟨3000, false, RawChunk.str "alpha"⟩, ⟨3000, true, RawChunk.str "beta"⟩,
          ⟨3000, true, RawChunk.complete ""⟩]
        = .error { fullResponse := "alpha", citations := [], lastUpdate := 0,
                    updates := [] }
      ∧ ("alpha" : String) ≠ "alphabeta" := by
  refine ⟨rfl, ?_⟩
  decide

/-- Claim C7 (amended): on the background path a failed progress update is
swallowed inside `updateMessage`, so consumption always continues to the
first `complete` chunk and accumulates every preceding text delta, whatever
the outcomes of the messaging-surface calls; on the interactive paths a
failed update propagates and aborts consumption. -/
theorem claim_C7_background_continues (pre : String) (tcs : List TimedChunk)
    (acc : StreamAcc) :
    (runBackground pre acc tcs).2 = afterComplete tcs
      ∧ (runBackground pre acc tcs).1.fullResponse
          = acc.fullResponse
            ++ concatTexts ((beforeComplete tcs).map fun tc => chunkDelta tc.chunk) :=
  runBackground_spec pre tcs acc

/-- Invocation trace of the knowledge-base loop when every configured
knowledge base fails: each one is tried, in order. -/
theorem tryKnowledgeBases_allFail (q : Option String → KBResult) :
    ∀ (kbs : List String) (i : Nat),
      (∀ kb ∈ kbs, (q (some kb)).success = false) →
      tryKnowledgeBases q i kbs = (none, kbs.map some) := by
  intro kbs
  induction kbs with
  | nil => intro i _; rfl
  | cons k rest ih =>
    intro i hall
    have hk : (q (some k)).success = false := hall k (List.mem_cons_self _ _)
    have hrest := ih (i + 1) (fun kb hkb => hall kb (List.mem_cons_of_mem _ hkb))
    simp [tryKnowledgeBases, hk, hrest]

/-- Claim C9: the multi-knowledge-base query tries the configured knowledge
bases in list order and returns the first success without invoking any later
one — with three knowledge bases where the first fails and the second
succeeds, the trace is exactly `[kb1, kb2]` and `kb3` is never invoked; and
when every configured knowledge base fails, every one is tried in order and
then a single unscoped query (traced as `none`) is the fallback. -/
theorem claim_C9_kb_priority (q : Option String → KBResult) (k1 k2 k3 : String)
    (kbs : List String)
    (h1 : (q (some k1)).success = false)
    (h2 : (q (some k2)).success = true)
    (hall : ∀ kb ∈ kbs, (q (some kb)).success = false) :
    (queryWithKnowledgeBasePriority q [k1, k2, k3]).2 = [some k1, some k2]
      ∧ (queryWithKnowledgeBasePriority q [k1, k2, k3]).1
          = { q (some k2) with
              source := some "knowledge base 2", knowledgeBaseUsed := some k2 }
      ∧ (queryWithKnowledgeBasePriority q [k1, k2, k3]).1.success = true
      ∧ (queryWithKnowledgeBasePriority q kbs).2 = kbs.map some ++ [none]
      ∧ (queryWithKnowledgeBasePriority q kbs).1
          = { q none with source := some "general AI", knowledgeBaseUsed := none } := by
  have hscen : queryWithKnowledgeBasePriority q [k1, k2, k3]
      = ({ q (some k2) with
          source := some "knowledge base 2", knowledgeBaseUsed := some k2 },
        [some k1, some k2]) := by
    simp [queryWithKnowledgeBasePriority, tryKnowledgeBases, h1, h2]
    rfl
  have hfall : queryWithKnowledgeBasePriority q kbs
      = ({ q none with source := some "general AI", knowledgeBaseUsed := none },
        kbs.map some ++ [none]) := by
    simp [queryWithKnowledgeBasePriority, tryKnowledgeBases_allFail q kbs 0 hall]
  refine ⟨?_, ?_, ?_, ?_, ?_⟩
  · rw [hscen]
  · rw [hscen]
  · rw [hscen]; exact h2
  · rw [hfall]
  · rw [hfall]

/-- Claim C9 witness: the scenario instantiated at the concrete oracle where
only "kb2" succeeds, with `kbs = ["kb1"]` for the all-fail clause. -/
theorem claim_C9_kb_priority_witness :
    ((kbOracle (some "kb1")).success = false
        ∧ (kbOracle (some "kb2")).success = true
        ∧ ∀ kb ∈ (["kb1"] : List String), (kbOracle (some kb)).success = false)
      ∧ ((queryWithKnowledgeBasePriority kbOracle ["kb1", "kb2", "kb3"]).2
            = [some "kb1", some "kb2"]
          ∧ (queryWithKnowledgeBasePriority kbOracle ["kb1", "kb2", "kb3"]).1
              = { kbOracle (some "kb2") with
                  source := some "knowledge base 2", knowledgeBaseUsed := some "kb2" }
          ∧ (queryWithKnowledgeBasePriority kbOracle ["kb1", "kb2", "kb3"]).1.success
              = true
          ∧ (queryWithKnowledgeBasePriority kbOracle ["kb1"]).2
              = ["kb1"].map some ++ [none]
          ∧ (queryWithKnowledgeBasePriority kbOracle ["kb1"]).1
              = { kbOracle none with
                  source := some "general AI", knowledgeBaseUsed := none }) :=
  ⟨⟨rfl, rfl, by decide⟩,
    claim_C9_kb_priority kbOracle "kb1" "kb2" "kb3" ["kb1"] rfl rfl (by decide)⟩

end Theorems

end Acorn
